import Mathlib

/-!
Verification development for the touchboard on-screen virtual keyboard
(`keyboard.c`).  The definitions below are a shallow embedding of the
layout loader, the input-dispatch state machine, the key-repeat logic,
the button-release handler and the focus-capture protocol of the source.
Pixel arithmetic (C `float`/`double`) is modelled with exact rationals;
X11 window and keysym identifiers are modelled as natural numbers with
`0` playing the role of `None`/`NoSymbol`.
-/

namespace Touchboard

/-! ### X11 keysym constants used by `keyboard.c` -/

def XK_Shift_L : Nat := 0xffe1
def XK_Shift_R : Nat := 0xffe2
def XK_Control_L : Nat := 0xffe3
def XK_Control_R : Nat := 0xffe4
def XK_Caps_Lock : Nat := 0xffe5
def XK_Alt_L : Nat := 0xffe9
def XK_Alt_R : Nat := 0xffea
def XK_Mode_switch : Nat := 0xff7e
/-- Custom constant defined at the top of `keyboard.c` for the Preferences key. -/
def XK_Preferences : Nat := 0x1008FF30
def XK_0 : Nat := 0x30
def XK_1 : Nat := 0x31
def XK_2 : Nat := 0x32
def XK_3 : Nat := 0x33
def XK_4 : Nat := 0x34
def XK_5 : Nat := 0x35
def XK_6 : Nat := 0x36
def XK_7 : Nat := 0x37
def XK_8 : Nat := 0x38
def XK_9 : Nat := 0x39
def XK_minus : Nat := 0x2d
def XK_equal : Nat := 0x3d
def XK_F1 : Nat := 0xffbe
def XK_F2 : Nat := 0xffbf
def XK_F3 : Nat := 0xffc0
def XK_F4 : Nat := 0xffc1
def XK_F5 : Nat := 0xffc2
def XK_F6 : Nat := 0xffc3
def XK_F7 : Nat := 0xffc4
def XK_F8 : Nat := 0xffc5
def XK_F9 : Nat := 0xffc6
def XK_F10 : Nat := 0xffc7
def XK_F11 : Nat := 0xffc8
def XK_F12 : Nat := 0xffc9

/-! ### JSON values (the fragment of cJSON used by `load_layout_json`) -/

/-- A parsed JSON value, as handed around by cJSON in `load_layout_json`. -/
inductive JVal where
  | jnull : JVal
  | jbool : Bool → JVal
  | jnum : ℚ → JVal
  | jstr : String → JVal
  | jarr : List JVal → JVal
  | jobj : List (String × JVal) → JVal

instance : Inhabited JVal := ⟨JVal.jnull⟩

/-- Models `cJSON_GetObjectItem`: field lookup on an object, `NULL` otherwise.
All field names appearing in this development are lower-case ASCII, so
cJSON's case-insensitive comparison coincides with exact string equality. -/
def getItem : JVal → String → Option JVal
  | JVal.jobj fs, k => (fs.find? (fun p => p.1 == k)).map (fun p => p.2)
  | _, _ => none

/-- Models `cJSON_IsArray`. -/
def isArr : JVal → Bool
  | JVal.jarr _ => true
  | _ => false

/-- Models `cJSON_IsObject`. -/
def isObj : JVal → Bool
  | JVal.jobj _ => true
  | _ => false

/-- Models `cJSON_IsString`. -/
def isStr : JVal → Bool
  | JVal.jstr _ => true
  | _ => false

/-- Models `cJSON_IsNumber`. -/
def isNum : JVal → Bool
  | JVal.jnum _ => true
  | _ => false

/-- The string payload of a JSON value (used after an `isStr` check). -/
def strOf : Option JVal → String
  | some (JVal.jstr s) => s
  | _ => ""

/-! ### Layout loader (`load_layout_json`) -/

/-- A key as produced by the layout loader: labels, resolved keysym
(`0` models `NoSymbol`, i.e. a failed resolution) and its pixel geometry. -/
structure Key where
  label : String
  shift_label : String
  keysym : Nat
  x : ℚ
  y : ℚ
  w : ℚ
  h : ℚ
deriving DecidableEq

instance : Inhabited Key := ⟨⟨"", "", 0, 0, 0, 0, 0⟩⟩

/-- A reserved horizontal interval on a row, claimed by a taller key from an
earlier row (the C `Span`; `stop` is the exclusive end, C field `end`). -/
structure Span where
  start : ℚ
  stop : ℚ
deriving DecidableEq

/-- Horizontal gap between keys (`GAP_PX` in the source). -/
def GAP_PX : ℚ := 2
/-- Vertical gap between rows (`ROW_GAP_PX` in the source). -/
def ROW_GAP_PX : ℚ := 2

/-- Width multiplier of a key descriptor: the `width` field if it is a number,
else `1`; non-positive values are coerced to `1`. -/
def itemWMult (it : JVal) : ℚ :=
  let m := match getItem it "width" with
    | some (JVal.jnum q) => q
    | _ => 1
  if m ≤ 0 then 1 else m

/-- Height multiplier of a key descriptor (same rules as `itemWMult`). -/
def itemHMult (it : JVal) : ℚ :=
  let m := match getItem it "height" with
    | some (JVal.jnum q) => q
    | _ => 1
  if m ≤ 0 then 1 else m

/-- `total_units` for a row: the width multipliers of the row's objects are
summed (non-objects are skipped); a non-positive sum is coerced to `1`. -/
def rowTotalUnits (row : List JVal) : ℚ :=
  let t := (row.map (fun it => if isObj it then itemWMult it else 0)).sum
  if t ≤ 0 then 1 else t

/-- `reserved_px` for a row: total width of the (positive-length) spans
already registered on it. -/
def reservedPx (spans : List Span) : ℚ :=
  (spans.map (fun sp => if sp.start < sp.stop then sp.stop - sp.start else 0)).sum

/-- One pass of the cursor-jump loop: for each registered span, in order, the
cursor is moved to the span's end if it currently lies inside the span. -/
def jumpCursor (spans : List Span) (x0 : ℚ) : ℚ :=
  spans.foldl (fun x sp => if sp.start ≤ x ∧ x < sp.stop then sp.stop else x) x0

/-- Last-column stretch width: `win_w - x`, unless some registered span
satisfies the source's test `K->x < sp.end && sp.end > K->x` (the first such
span in registration order wins), in which case `sp.start - x - GAP_PX`. -/
def stretchWidth (spans : List Span) (win_w x : ℚ) : ℚ :=
  match spans.find? (fun sp => decide (x < sp.stop) && decide (sp.stop > x)) with
  | some sp => sp.start - x - GAP_PX
  | none => win_w - x

/-- A descriptor is well formed when it is an object carrying string `label`
and `keysym` fields (the source's `!lab||!ks||!IsString` guard). -/
def descOk (it : JVal) : Bool :=
  isObj it && (getItem it "label").any isStr && (getItem it "keysym").any isStr

/-- Keysym resolution with the documented `"XK_Preferences"` special case; the
environment function `resolve` models `XStringToKeysym` (`0` = `NoSymbol`). -/
def resolveKeysym (resolve : String → Nat) (s : String) : Nat :=
  if s = "XK_Preferences" then XK_Preferences
  else
    let lookup := if s.startsWith "XK_" then s.drop 3 else s
    let k := resolve lookup
    if k = 0 then resolve s else k

/-- Mutable state threaded through the loader's row pass: keys emitted so far
and the per-row reserved spans (in registration order). -/
structure LoaderSt where
  keys : List Key
  reserved : Nat → List Span

/-- Registers the downward spans of a tall key: for `dr = 1 .. spansDown`,
row `r + dr` receives the span, stopping at the row count. -/
def addSpans (nrows r : Nat) (spansDown : Int) (sp : Span) (st : LoaderSt) : LoaderSt :=
  (List.range spansDown.toNat).foldl
    (fun st dr =>
      let rr := r + dr + 1
      if rr ≥ nrows then st
      else { st with reserved := fun q => if q = rr then st.reserved q ++ [sp] else st.reserved q })
    st

/-- Placement of a single descriptor of row `r` (column index `c` of `ncols`):
the body of the inner column loop of `load_layout_json`.  The accumulator is
the running `xcursor` paired with the loader state. -/
def placeItem (resolve : String → Nat) (win_w row_h unit : ℚ) (maxkeys nrows ncols r c : Nat)
    (it : JVal) (acc : ℚ × LoaderSt) : ℚ × LoaderSt :=
  let xc := acc.1
  let st := acc.2
  if descOk it then
    let wmult := itemWMult it
    let hmult := itemHMult it
    let xj := jumpCursor (st.reserved r) xc
    if st.keys.length < maxkeys then
      let x := xj
      let y := (r : ℚ) * row_h + ROW_GAP_PX * (r : ℚ)
      let h := row_h * hmult + ROW_GAP_PX * (hmult - 1)
      let w := if c = ncols - 1 then stretchWidth (st.reserved r) win_w x else unit * wmult
      let xc2 := x + w + (if c < ncols - 1 then GAP_PX else 0)
      let K : Key :=
        { label := strOf (getItem it "label")
          shift_label := match getItem it "shift_label" with
            | some (JVal.jstr s) => s
            | _ => ""
          keysym := resolveKeysym resolve (strOf (getItem it "keysym"))
          x := x, y := y, w := w, h := h }
      let spansDown : Int := ⌊hmult⌋ - 1
      let st2 := addSpans nrows r spansDown ⟨x, x + w⟩ st
      (xc2, { st2 with keys := st2.keys ++ [K] })
    else (xj, st)
  else (xc, st)

/-- Processing of one well-formed (array) row of the layout document. -/
def processRow (resolve : String → Nat) (win_w row_h : ℚ) (maxkeys nrows r : Nat)
    (row : List JVal) (st : LoaderSt) : LoaderSt :=
  let ncols := row.length
  let total := rowTotalUnits row
  let rpx := reservedPx (st.reserved r)
  let gaps : ℚ := (if 0 < ncols then ((ncols - 1 : Nat) : ℚ) else 0) * GAP_PX
  let eff0 := win_w - rpx - gaps
  let eff := if eff0 < 1 then 1 else eff0
  let unit := eff / total
  (row.enum.foldl
    (fun acc p => placeItem resolve win_w row_h unit maxkeys nrows ncols r p.1 p.2 acc)
    ((0 : ℚ), st)).2

/-- One step of the loader's outer row loop: an array row is processed, any
other row value is skipped. -/
def loadRowStep (resolve : String → Nat) (win_w row_h : ℚ) (maxkeys nrows : Nat)
    (st : LoaderSt) (p : Nat × JVal) : LoaderSt :=
  match p.2 with
  | JVal.jarr row => processRow resolve win_w row_h maxkeys nrows p.1 row st
  | _ => st

/-- Result of `load_layout_json`: the loaded keys, and whether a diagnostic
was logged on the fatal path (unreadable/unparseable document, `rows` missing
or not an array). -/
structure LoadResult where
  keys : List Key
  diag : Bool
deriving DecidableEq

/-- Shallow embedding of `load_layout_json`.  `root?` is the outcome of
reading and parsing the document (`none` models an unreadable file or a
`cJSON_Parse` failure); `resolve` models the platform keysym table. -/
def load_layout_json (resolve : String → Nat) (root? : Option JVal)
    (maxkeys : Nat) (win_w win_h : ℚ) : LoadResult :=
  match root? with
  | none => ⟨[], true⟩
  | some root =>
    match getItem root "rows" with
    | some (JVal.jarr rows) =>
      let nrows := rows.length
      let row_h := win_h / (nrows : ℚ)
      let final := rows.enum.foldl
        (loadRowStep resolve win_w row_h maxkeys nrows) ⟨[], fun _ => []⟩
      ⟨final.keys, false⟩
    | _ => ⟨[], true⟩

/-- Whether the document fails the loader's fatal checks: no parse result, or
no `rows` array (missing field as well as a non-array `rows` value). -/
def rowsBroken (root? : Option JVal) : Bool :=
  match root? with
  | none => true
  | some root =>
    match getItem root "rows" with
    | some (JVal.jarr _) => false
    | _ => true

/-- Count of well-formed descriptors inside one row value. -/
def goodRowCount (rv : JVal) : Nat :=
  match rv with
  | JVal.jarr row => (row.filter descOk).length
  | _ => 0

/-- Count of well-formed descriptors in well-formed rows of the whole
document: the number of keys the loader emits, before the `maxkeys` cap. -/
def goodKeyCount (root? : Option JVal) : Nat :=
  match root? with
  | none => 0
  | some root =>
    match getItem root "rows" with
    | some (JVal.jarr rows) => (rows.map goodRowCount).sum
    | _ => 0

/-! ### Input dispatch state machine (`main`, ButtonPress on the key grid) -/

/-- A synthetic-input event as sent through `XTestFakeKeyEvent`. -/
inductive Ev where
  | keyDown : Nat → Ev
  | keyUp : Nat → Ev
deriving DecidableEq

/-- The dispatch-relevant program state: the loaded keys and the parallel
`pressed`, `press_time` and `last_repeat` arrays, the five modifier booleans,
the menu flag and the captured focus target (`0` = `None`). -/
structure DState where
  keys : List Key
  pressedFlags : List Bool
  shift : Bool
  caps : Bool
  ctrl : Bool
  alt : Bool
  fn : Bool
  menuVisible : Bool
  lastFocus : Nat
  pressTime : List Int
  lastRepeat : List Int
deriving DecidableEq

def isShiftSym (k : Nat) : Bool := k == XK_Shift_L || k == XK_Shift_R
def isCtrlSym (k : Nat) : Bool := k == XK_Control_L || k == XK_Control_R
def isAltSym (k : Nat) : Bool := k == XK_Alt_L || k == XK_Alt_R

/-- The keysyms whose presses are intercepted before the injection path:
the Preferences toggle, the four modifier toggles and the Fn key. -/
def handledEarly (k : Nat) : Prop :=
  k = XK_Preferences ∨ k = XK_Shift_L ∨ k = XK_Shift_R ∨ k = XK_Caps_Lock ∨
  k = XK_Control_L ∨ k = XK_Control_R ∨ k = XK_Alt_L ∨ k = XK_Alt_R ∨
  k = XK_Mode_switch

instance (k : Nat) : Decidable (handledEarly k) := by
  unfold handledEarly; infer_instance

/-- The Fn number-row remap (`1→F1 … 0→F10, minus→F11, equal→F12`);
identity outside the remapped set. -/
def fnRemap (k : Nat) : Nat :=
  if k = XK_1 then XK_F1
  else if k = XK_2 then XK_F2
  else if k = XK_3 then XK_F3
  else if k = XK_4 then XK_F4
  else if k = XK_5 then XK_F5
  else if k = XK_6 then XK_F6
  else if k = XK_7 then XK_F7
  else if k = XK_8 then XK_F8
  else if k = XK_9 then XK_F9
  else if k = XK_0 then XK_F10
  else if k = XK_minus then XK_F11
  else if k = XK_equal then XK_F12
  else k

/-- A label is a letter key when it is a single alphabetic character
(`strlen(label)==1 && isalpha(label[0])`). -/
def isLetterKey (label : String) : Bool :=
  label.length == 1 && (label.toList.headD '0').isAlpha

/-- The `need_shift` computation of the dispatch path. -/
def needShiftOf (k : Key) (caps shift : Bool) : Bool :=
  if isLetterKey k.label then xor caps shift else shift

/-- The synthetic emission of one dispatched key: transient modifier
key-down wraps (shift, ctrl, alt, each only when toggled and resolvable),
the key itself (only when its keycode is nonzero), then the matching
key-up wraps in reverse order.  `kcOf` models `XKeysymToKeycode`. -/
def emitEvents (kcOf : Nat → Nat) (needSh ctrlOn altOn : Bool) (base : Nat) : List Ev :=
  let kc := kcOf base
  let skc := kcOf XK_Shift_L
  let ckc := kcOf XK_Control_L
  let akc := kcOf XK_Alt_L
  (if needSh && skc != 0 then [Ev.keyDown skc] else []) ++
  (if ctrlOn && ckc != 0 then [Ev.keyDown ckc] else []) ++
  (if altOn && akc != 0 then [Ev.keyDown akc] else []) ++
  (if kc != 0 then [Ev.keyDown kc, Ev.keyUp kc] else []) ++
  (if altOn && akc != 0 then [Ev.keyUp akc] else []) ++
  (if ctrlOn && ckc != 0 then [Ev.keyUp ckc] else []) ++
  (if needSh && skc != 0 then [Ev.keyUp skc] else [])

/-- The auto-release pass over the pressed array: the flags of every
Shift/Ctrl/Alt key are cleared, all other flags are kept. -/
def clearModFlags (keys : List Key) (flags : List Bool) : List Bool :=
  List.zipWith
    (fun (k : Key) f =>
      if isShiftSym k.keysym || isCtrlSym k.keysym || isAltSym k.keysym then false else f)
    keys flags

/-- Shallow embedding of the ButtonPress handler's per-key branch (the body
entered when the hit test selects key `i`, with the menu closed): records the
press, handles the Preferences and modifier toggles, otherwise applies the Fn
remap, emits synthetic input when a focus target is captured, and performs
the auto-release of the transient modifiers.  Returns the new state and the
emitted events. -/
def pressKey (kcOf : Nat → Nat) (now : Int) (st : DState) (i : Nat) : DState × List Ev :=
  let st0 := { st with pressedFlags := st.pressedFlags.set i true,
                       pressTime := st.pressTime.set i now,
                       lastRepeat := st.lastRepeat.set i 0 }
  let k := st.keys.getD i default
  if k.keysym = XK_Preferences then
    ({ st0 with menuVisible := !st.menuVisible }, [])
  else if isShiftSym k.keysym then
    ({ st0 with shift := !st.shift, pressedFlags := st0.pressedFlags.set i (!st.shift) }, [])
  else if k.keysym = XK_Caps_Lock then
    ({ st0 with caps := !st.caps, pressedFlags := st0.pressedFlags.set i false }, [])
  else if isCtrlSym k.keysym then
    ({ st0 with ctrl := !st.ctrl, pressedFlags := st0.pressedFlags.set i (!st.ctrl) }, [])
  else if isAltSym k.keysym then
    ({ st0 with alt := !st.alt, pressedFlags := st0.pressedFlags.set i (!st.alt) }, [])
  else if k.keysym = XK_Mode_switch then
    ({ st0 with fn := !st.fn, pressedFlags := st0.pressedFlags.set i true }, [])
  else
    let base := if st.fn then fnRemap k.keysym else k.keysym
    let evs := if st.lastFocus ≠ 0 then
        emitEvents kcOf (needShiftOf k st.caps st.shift) st.ctrl st.alt base
      else []
    if isShiftSym k.keysym || isCtrlSym k.keysym || isAltSym k.keysym
        || k.keysym == XK_Caps_Lock then
      ({ st0 with fn := false }, evs)
    else
      ({ st0 with fn := false, shift := false, ctrl := false, alt := false,
                  pressedFlags := clearModFlags st.keys st0.pressedFlags }, evs)

/-! ### Key repeat (`main`, per-iteration repeat processing) -/

/-- The repeat-firing test for key `i` at time `now`:
`pressed[i] && dt > 400 && (last_repeat==0 || now - last_repeat > 100)`. -/
def repeatFires (st : DState) (i : Nat) (now : Int) : Bool :=
  st.pressedFlags.getD i false
    && decide (now - st.pressTime.getD i 0 > 400)
    && (st.lastRepeat.getD i 0 == 0 || decide (now - st.lastRepeat.getD i 0 > 100))

/-- The synthetic events of one repeat tick for key `i`: the key's unmodified
keysym, wrapped with a shift pair alone when `need_shift` (recomputed from the
current caps/shift state) holds; nothing when no focus target is captured. -/
def repeatEvents (kcOf : Nat → Nat) (st : DState) (i : Nat) (now : Int) : List Ev :=
  if repeatFires st i now && st.lastFocus != 0 then
    let k := st.keys.getD i default
    let kc := kcOf k.keysym
    let skc := kcOf XK_Shift_L
    let ns := needShiftOf k st.caps st.shift
    (if ns && skc != 0 then [Ev.keyDown skc] else []) ++
    (if kc != 0 then [Ev.keyDown kc, Ev.keyUp kc] else []) ++
    (if ns && skc != 0 then [Ev.keyUp skc] else [])
  else []

/-- The timer update of one repeat tick: `last_repeat[i] = now` whenever the
firing test holds (the timer advances even with no focus target). -/
def repeatTimer (st : DState) (i : Nat) (now : Int) : DState :=
  if repeatFires st i now then { st with lastRepeat := st.lastRepeat.set i now } else st

/-- One whole repeat scan over the key array, in index order. -/
def repeatScanEvents (kcOf : Nat → Nat) (st : DState) (now : Int) : List Ev :=
  (List.range st.keys.length).flatMap (fun i => repeatEvents kcOf st i now)

/-! ### Button release (`main`, ButtonRelease with the menu closed) -/

/-- Index of the first `true` entry of the pressed array (the C loop's
`break` after the first hit), if any. -/
def firstPressedIdx : List Bool → Option Nat
  | [] => none
  | b :: rest => if b then some 0 else (firstPressedIdx rest).map (· + 1)

/-- Shallow embedding of the ButtonRelease handler's key-array pass (the path
taken when the menu is not open).  The event coordinates `x`, `y` are carried
by the event but the pass never consults them: only the first key currently
marked pressed is updated — its flag becomes the governing modifier boolean
for Shift/Ctrl/Alt keys and `false` for Caps Lock and every other key, and its
repeat timer is reset. -/
def handleRelease (x y : Int) (st : DState) : DState :=
  match firstPressedIdx st.pressedFlags with
  | none => st
  | some i =>
    let k := st.keys.getD i default
    let v := if k.keysym = XK_Caps_Lock then false
      else if isShiftSym k.keysym then st.shift
      else if isCtrlSym k.keysym then st.ctrl
      else if isAltSym k.keysym then st.alt
      else false
    { st with pressedFlags := st.pressedFlags.set i v,
              lastRepeat := st.lastRepeat.set i 0 }

/-! ### Focus capture protocol (`main`, startup capture and per-iteration
re-sample) -/

/-- The X-server responses consulted by the focus-capture code.  Windows are
naturals, `0` models `None` and `1` the `PointerRoot` sentinel (`(Window)0x1`).
`ptrChild` is the child returned by `XQueryPointer` (`none` when the call
fails or reports no child), `attrsOk` the success of `XGetWindowAttributes`,
`tree` the children listed by `XQueryTree` (`none` on failure) and
`inputOutput` the `attr.class == InputOutput` test. -/
structure XEnv where
  focus : Nat
  ptrChild : Nat → Option Nat
  attrsOk : Nat → Bool
  tree : Nat → Option (List Nat)
  inputOutput : Nat → Bool

/-- `deepest_under_pointer`: follow `XQueryPointer` children until none is
reported (fuelled, since the C loop walks the finite window tree). -/
def deepestUnderPointer (env : XEnv) : Nat → Nat → Nat
  | 0, w => w
  | fuel + 1, w =>
    match env.ptrChild w with
    | none => w
    | some c => deepestUnderPointer env fuel c

/-- `find_input_child`: descend into the first `InputOutput` child reported by
`XQueryTree`, returning the window itself when there is none. -/
def findInputChild (env : XEnv) : Nat → Nat → Nat
  | 0, w => w
  | fuel + 1, w =>
    match env.tree w with
    | none => w
    | some cs =>
      match cs.find? (fun c => env.attrsOk c && env.inputOutput c) with
      | none => w
      | some c =>
        let deeper := findInputChild env fuel c
        if deeper ≠ 0 then deeper else c

/-- The startup capture (`last_focus` initially `None`): prefer the current
input focus when it is not `None`, the main window, the input child, the root
or the `0x1` sentinel; otherwise descend from the pointer's top-level child —
with no self-window check on the descent result — and keep the result when its
attributes resolve.  A final attribute re-check guards the captured value. -/
def startupCapture (env : XEnv) (fuel : Nat) (win inputWin root : Nat) : Nat :=
  let fw := env.focus
  let lf :=
    if fw ≠ 0 ∧ fw ≠ win ∧ fw ≠ inputWin ∧ fw ≠ root ∧ fw ≠ 1 then fw
    else
      match env.ptrChild root with
      | some child =>
        let target := deepestUnderPointer env fuel child
        let lf0 := findInputChild env fuel target
        if lf0 ≠ 0 ∧ env.attrsOk lf0 then lf0 else 0
      | none => 0
  if lf ≠ 0 then (if env.attrsOk lf then lf else 0) else lf

/-- The per-iteration re-sample while the keyboard is visible: the focus
branch updates `last_focus` under the same five-way filter; the pointer branch
additionally rejects a self top-level child before descending, and clears the
target when the descent result's attributes fail to resolve. -/
def loopResample (env : XEnv) (fuel : Nat) (win inputWin root prev : Nat) : Nat :=
  let fw := env.focus
  let lf1 :=
    if fw ≠ 0 ∧ fw ≠ win ∧ fw ≠ inputWin ∧ fw ≠ root ∧ fw ≠ 1 then fw else prev
  match env.ptrChild root with
  | none => lf1
  | some child =>
    if child ≠ 0 ∧ child ≠ win ∧ child ≠ inputWin ∧ child ≠ root ∧ child ≠ 1 then
      let target := deepestUnderPointer env fuel child
      let lf2 := findInputChild env fuel target
      if lf2 ≠ 0 then (if env.attrsOk lf2 then lf2 else 0) else lf2
    else lf1

/-! ### Concrete inputs used in the evaluations below -/

/-- A minimal key descriptor with the given label. -/
def kdesc (lab : String) : JVal :=
  JVal.jobj [("label", JVal.jstr lab), ("keysym", JVal.jstr "a")]

/-- A key descriptor with a height multiplier. -/
def kdescH (lab : String) (h : ℚ) : JVal :=
  JVal.jobj [("label", JVal.jstr lab), ("keysym", JVal.jstr "a"), ("height", JVal.jnum h)]

/-- A key descriptor with width and height multipliers. -/
def kdescWH (lab : String) (w h : ℚ) : JVal :=
  JVal.jobj [("label", JVal.jstr lab), ("keysym", JVal.jstr "a"),
             ("width", JVal.jnum w), ("height", JVal.jnum h)]

/-- A three-row layout on a 304×300 canvas.  Row 0's middle key spans three
rows (reserving x-interval 102..202 on rows 1 and 2) and row 1's middle key
spans two rows (reserving 52..152 on row 2), so row 2's reserved-span list is
out of left-to-right order.  Placing row 2's second, last key jumps the cursor
from 53 into the already-checked span 102..202, landing at x = 152, strictly
inside a reserved interval, with no reserved span beginning to its right. -/
def docSpans : JVal := JVal.jobj [("rows", JVal.jarr [
  JVal.jarr [kdesc "k00", kdescH "k01" 3, kdesc "k02"],
  JVal.jarr [kdesc "k10", kdescWH "k11" 2 2, kdesc "k12"],
  JVal.jarr [kdesc "k20", kdesc "k21"]])]

/-- A shift key (as loaded from a layout). -/
def shiftKey : Key := ⟨"Shift", "", XK_Shift_L, 0, 0, 0, 0⟩
/-- The Fn key (`XK_Mode_switch` in the source). -/
def fnKey : Key := ⟨"Fn", "", XK_Mode_switch, 0, 0, 0, 0⟩
/-- A plain letter key. -/
def aKey : Key := ⟨"a", "", 0x61, 0, 0, 0, 0⟩
/-- The number-row key remapped to F1 under Fn. -/
def oneKey : Key := ⟨"1", "!", XK_1, 0, 0, 0, 0⟩
/-- A key whose symbolic name failed resolution (`NoSymbol`, modelled `0`). -/
def badKey : Key := ⟨"!", "", 0, 0, 0, 0, 0⟩

/-- A fresh dispatch state over the given keys: nothing pressed, all modifier
booleans clear, menu closed, an external focus target (7) captured. -/
def mkDState (keys : List Key) : DState :=
  { keys := keys
    pressedFlags := List.replicate keys.length false
    shift := false, caps := false, ctrl := false, alt := false, fn := false
    menuVisible := false
    lastFocus := 7
    pressTime := List.replicate keys.length 0
    lastRepeat := List.replicate keys.length 0 }

/-- State for the C4 witness: caps and ctrl toggled before a letter press. -/
def stC4 : DState := { mkDState [aKey] with caps := true, ctrl := true }

/-- State for the C9 witness: Fn armed before a number-row press. -/
def stC9 : DState := { mkDState [oneKey] with fn := true }

/-- State for the C2 witness: every modifier toggled, a letter key at index 1. -/
def stC2w : DState :=
  { mkDState [shiftKey, aKey] with shift := true, ctrl := true, alt := true,
                                   caps := true, pressedFlags := [true, false] }

/-- State for the C7 witness: a lone resolution-failed key, no modifiers active. -/
def stC7w : DState := mkDState [badKey]

/-- State for the C6 witness: the letter key held since time 0. -/
def stC6 : DState := { mkDState [aKey] with pressedFlags := [true] }

/-- State for the C10 witness: shift toggled, both keys held. -/
def stC10 : DState :=
  { mkDState [shiftKey, aKey] with shift := true, pressedFlags := [true, true],
                                   lastRepeat := [5, 9] }

/-- X-server responses at a startup where the input focus sits on the root
window (2) and the pointer hovers the keyboard's own main window (10), whose
only pointer-descendant is its InputOnly input-routing child (11). -/
def c1Env : XEnv :=
  { focus := 2
    ptrChild := fun w => if w = 2 then some 10 else if w = 10 then some 11 else none
    attrsOk := fun _ => true
    tree := fun _ => some []
    inputOutput := fun _ => false }

/-! ## Helper lemmas -/

/-- Registering downward spans never touches the emitted key list. -/
theorem addSpans_keys (nrows r : Nat) (sd : Int) (sp : Span) (st : LoaderSt) :
    (addSpans nrows r sd sp st).keys = st.keys := by
  unfold addSpans
  generalize List.range sd.toNat = l
  induction l generalizing st with
  | nil => rfl
  | cons a l ih =>
    rw [List.foldl_cons]
    rw [ih]
    by_cases h : r + a + 1 ≥ nrows
    · simp [h]
    · simp [h]

/-- Placing one descriptor grows the key list by one exactly when the
descriptor is well formed and the `maxkeys` cap has not been reached. -/
theorem placeItem_keys_length (resolve : String → Nat) (ww rh u : ℚ)
    (mk nr nc r c : Nat) (it : JVal) (acc : ℚ × LoaderSt) :
    ((placeItem resolve ww rh u mk nr nc r c it acc).2).keys.length =
      if descOk it = true ∧ acc.2.keys.length < mk then acc.2.keys.length + 1
      else acc.2.keys.length := by
  unfold placeItem
  by_cases hd : descOk it
  · by_cases hl : acc.2.keys.length < mk
    · simp [hd, hl, addSpans_keys]
    · simp [hd, hl]
  · simp [hd]

/-- Key-count invariant of the column fold of one row. -/
theorem foldPlace_keys_length (resolve : String → Nat) (ww rh u : ℚ)
    (mk nr nc r : Nat) (l : List (Nat × JVal)) (acc : ℚ × LoaderSt)
    (h : acc.2.keys.length ≤ mk) :
    ((l.foldl (fun acc p => placeItem resolve ww rh u mk nr nc r p.1 p.2 acc) acc).2).keys.length
      = min mk (acc.2.keys.length + (l.filter (fun p => descOk p.2)).length) := by
  induction l generalizing acc with
  | nil => simpa using (Nat.min_eq_right h).symm
  | cons a l ih =>
    rw [List.foldl_cons]
    have hlen := placeItem_keys_length resolve ww rh u mk nr nc r a.1 a.2 acc
    have hle : ((placeItem resolve ww rh u mk nr nc r a.1 a.2 acc).2).keys.length ≤ mk := by
      rw [hlen]; split_ifs with hc
      · omega
      · exact h
    rw [ih _ hle, hlen]
    by_cases hd : descOk a.2
    · by_cases hl : acc.2.keys.length < mk
      · simp only [hd, hl, and_self, if_true, List.filter_cons, List.length_cons]
        omega
      · simp only [hd, hl, and_false, if_false, List.filter_cons, List.length_cons]
        omega
    · simp only [hd, false_and, if_false, List.filter_cons]
      simp [hd]

/-- Enumeration preserves the count of well-formed descriptors. -/
theorem enumFrom_filter_descOk (row : List JVal) :
    ∀ n, ((List.enumFrom n row).filter (fun p => descOk p.2)).length
      = (row.filter descOk).length := by
  induction row with
  | nil => intro n; rfl
  | cons a l ih =>
    intro n
    by_cases hd : descOk a
    · simp [List.enumFrom, List.filter_cons, hd, ih]
    · simp [List.enumFrom, List.filter_cons, hd, ih]

/-- Key-count invariant of one row pass. -/
theorem processRow_keys_length (resolve : String → Nat) (ww rh : ℚ)
    (mk nr r : Nat) (row : List JVal) (st : LoaderSt)
    (h : st.keys.length ≤ mk) :
    (processRow resolve ww rh mk nr r row st).keys.length =
      min mk (st.keys.length + (row.filter descOk).length) := by
  unfold processRow
  rw [foldPlace_keys_length _ _ _ _ _ _ _ _ _ _ h]
  rw [show row.enum = List.enumFrom 0 row from rfl, enumFrom_filter_descOk]

/-- Key-count invariant of the fold over the document's rows. -/
theorem foldRows_keys_length (resolve : String → Nat) (ww rh : ℚ)
    (mk nr : Nat) (l : List (Nat × JVal)) (st : LoaderSt)
    (h : st.keys.length ≤ mk) :
    ((l.foldl (loadRowStep resolve ww rh mk nr) st).keys.length)
      = min mk (st.keys.length + (l.map (fun p => goodRowCount p.2)).sum) := by
  induction l generalizing st with
  | nil => simpa using (Nat.min_eq_right h).symm
  | cons a l ih =>
    rw [List.foldl_cons]
    cases ha : a.2 with
    | jarr row =>
      have hstep : loadRowStep resolve ww rh mk nr st a
          = processRow resolve ww rh mk nr a.1 row st := by
        simp [loadRowStep, ha]
      have hrow := processRow_keys_length resolve ww rh mk nr a.1 row st h
      have hle : (processRow resolve ww rh mk nr a.1 row st).keys.length ≤ mk := by
        rw [hrow]; omega
      rw [hstep, ih _ hle, hrow]
      simp only [List.map_cons, List.sum_cons, goodRowCount, ha]
      omega
    | jnull =>
      have hstep : loadRowStep resolve ww rh mk nr st a = st := by simp [loadRowStep, ha]
      rw [hstep, ih _ h]; simp [goodRowCount, ha]
    | jbool b =>
      have hstep : loadRowStep resolve ww rh mk nr st a = st := by simp [loadRowStep, ha]
      rw [hstep, ih _ h]; simp [goodRowCount, ha]
    | jnum q =>
      have hstep : loadRowStep resolve ww rh mk nr st a = st := by simp [loadRowStep, ha]
      rw [hstep, ih _ h]; simp [goodRowCount, ha]
    | jstr s =>
      have hstep : loadRowStep resolve ww rh mk nr st a = st := by simp [loadRowStep, ha]
      rw [hstep, ih _ h]; simp [goodRowCount, ha]
    | jobj fs =>
      have hstep : loadRowStep resolve ww rh mk nr st a = st := by simp [loadRowStep, ha]
      rw [hstep, ih _ h]; simp [goodRowCount, ha]

/-- Enumeration preserves the per-row well-formed-descriptor sum. -/
theorem enumFrom_goodRowCount_sum (rows : List JVal) :
    ∀ n, ((List.enumFrom n rows).map (fun p => goodRowCount p.2)).sum
      = (rows.map goodRowCount).sum := by
  induction rows with
  | nil => intro n; rfl
  | cons a l ih => intro n; simp [List.enumFrom, ih]

/-- The auto-release pass clears the flag of every Shift/Ctrl/Alt key. -/
theorem clearModFlags_getD (keys : List Key) (flags : List Bool) (j : Nat)
    (hm : (isShiftSym (keys.getD j default).keysym
           || isCtrlSym (keys.getD j default).keysym
           || isAltSym (keys.getD j default).keysym) = true) :
    (clearModFlags keys flags).getD j false = false := by
  induction keys generalizing flags j with
  | nil =>
    rw [List.getD_nil] at hm
    exact absurd hm (by decide)
  | cons k ks ih =>
    cases flags with
    | nil => simp [clearModFlags]
    | cons f fs =>
      cases j with
      | zero =>
        simp only [List.getD_cons_zero] at hm
        simp only [clearModFlags, List.zipWith_cons_cons, List.getD_cons_zero]
        rw [if_pos hm]
      | succ j =>
        simp only [List.getD_cons_succ] at hm
        simpa [clearModFlags] using ih fs j hm

/-- Full characterisation of `pressKey` on the injection path: when the hit
key's keysym is none of the intercepted ones, the press is recorded, the Fn
remap is applied under `fn`, emission happens exactly when a target is
captured, and shift, ctrl, alt and fn are all cleared together with the
pressed flags of every Shift/Ctrl/Alt key. -/
theorem pressKey_dispatch (kcOf : Nat → Nat) (now : Int) (st : DState) (i : Nat)
    (h : ¬ handledEarly (st.keys.getD i default).keysym) :
    pressKey kcOf now st i =
      ({ st with pressedFlags := clearModFlags st.keys (st.pressedFlags.set i true),
                 pressTime := st.pressTime.set i now,
                 lastRepeat := st.lastRepeat.set i 0,
                 fn := false, shift := false, ctrl := false, alt := false },
       if st.lastFocus ≠ 0 then
         emitEvents kcOf (needShiftOf (st.keys.getD i default) st.caps st.shift)
           st.ctrl st.alt
           (if st.fn then fnRemap (st.keys.getD i default).keysym
            else (st.keys.getD i default).keysym)
       else []) := by
  unfold handledEarly at h
  push_neg at h
  obtain ⟨h1, h2, h3, h4, h5, h6, h7, h8, h9⟩ := h
  have hs : isShiftSym (st.keys.getD i default).keysym = false := by
    unfold isShiftSym
    exact Bool.or_eq_false_iff.mpr ⟨beq_eq_false_iff_ne.mpr h2, beq_eq_false_iff_ne.mpr h3⟩
  have hc : isCtrlSym (st.keys.getD i default).keysym = false := by
    unfold isCtrlSym
    exact Bool.or_eq_false_iff.mpr ⟨beq_eq_false_iff_ne.mpr h5, beq_eq_false_iff_ne.mpr h6⟩
  have ha : isAltSym (st.keys.getD i default).keysym = false := by
    unfold isAltSym
    exact Bool.or_eq_false_iff.mpr ⟨beq_eq_false_iff_ne.mpr h7, beq_eq_false_iff_ne.mpr h8⟩
  have hcap : ((st.keys.getD i default).keysym == XK_Caps_Lock) = false := by
    exact beq_eq_false_iff_ne.mpr h4
  unfold pressKey
  rw [if_neg h1, hs, hc, ha, hcap]
  rw [if_neg h4, if_neg h9]
  rfl

/-- `firstPressedIdx` returns the lowest index carrying `true`. -/
theorem firstPressedIdx_spec (flags : List Bool) (i : Nat)
    (h : firstPressedIdx flags = some i) :
    flags.getD i false = true ∧ ∀ j, j < i → flags.getD j false = false := by
  induction flags generalizing i with
  | nil => simp [firstPressedIdx] at h
  | cons b rest ih =>
    by_cases hb : b
    · rw [firstPressedIdx, if_pos hb] at h
      cases h
      exact ⟨by simpa using hb, fun j hj => absurd hj (Nat.not_lt_zero j)⟩
    · rw [firstPressedIdx, if_neg hb] at h
      cases hr : firstPressedIdx rest with
      | none => rw [hr] at h; simp at h
      | some i0 =>
        rw [hr] at h
        simp only [Option.map_some'] at h
        cases h
        obtain ⟨ht, hlt⟩ := ih i0 hr
        refine ⟨by simpa using ht, ?_⟩
        intro j hj
        cases j with
        | zero => simpa using hb
        | succ j => exact (by simpa using hlt j (by omega))

/-! ## Claim theorems -/

/-- C1: the claim that the captured focus target is never one of the
keyboard's own surfaces fails at startup.  In environment `c1Env` — input
focus on the root window (2), pointer over the keyboard's main window (10),
whose only pointer descendant is its InputOnly input-routing child (11) — the
startup capture takes the pointer-descent fallback, which applies no
self-window check, and captures 11: the keyboard's own input-routing child. -/
theorem c1_startup_captures_input_child :
    startupCapture c1Env 5 10 11 2 = 11 := by decide

unseal Rat.add Rat.mul Rat.inv Rat.sub in
/-- C5: evaluation of the layout loader on `docSpans` (canvas 304×300).  The
final key of row 2 is placed at x = 152; row 2's reserved spans are 102..202
and 52..152, so no reserved span begins to the right of the key's left edge
and by the claim the key should stretch to the canvas's right edge 304.  The
loader's stretch test `K->x < sp.end && sp.end > K->x` instead matches the
span 102..202 by its end and assigns width 102 − 152 − 2 = −52, leaving the
key's right edge at 100. -/
theorem c5_stretch_misfires :
    (load_layout_json (fun _ => 0) (some docSpans) 256 304 300).keys.map
        (fun k => (k.x, k.y, k.w, k.h)) =
      [(0, 0, 100, 100), (102, 0, 100, 304), (204, 0, 100, 100),
       (0, 102, 50, 100), (52, 102, 100, 202), (202, 102, 102, 100),
       (0, 204, 51, 100), (152, 204, -52, 100)] := by decide

/-- C8: the layout loader skips rows that are not arrays and descriptors
lacking a string `label` or `keysym`, continuing with the remaining
rows/keys — the number of loaded keys equals the number of well-formed
descriptors inside well-formed rows, capped at `maxkeys` — and it reports a
diagnostic exactly when the document failed to parse or carries no rows
array; in those cases, as well as for an empty rows array (non-positive row
count), zero keys are returned. -/
theorem c8_loader_error_policy (resolve : String → Nat) (root? : Option JVal)
    (maxkeys : Nat) (ww wh : ℚ) :
    (load_layout_json resolve root? maxkeys ww wh).diag = rowsBroken root? ∧
    (load_layout_json resolve root? maxkeys ww wh).keys.length
      = min maxkeys (goodKeyCount root?) := by
  cases root? with
  | none => constructor <;> simp [load_layout_json, rowsBroken, goodKeyCount]
  | some root =>
    cases hr : getItem root "rows" with
    | none =>
      constructor <;> simp [load_layout_json, rowsBroken, goodKeyCount, hr]
    | some rv =>
      cases rv with
      | jnull => constructor <;> simp [load_layout_json, rowsBroken, goodKeyCount, hr]
      | jbool b => constructor <;> simp [load_layout_json, rowsBroken, goodKeyCount, hr]
      | jnum q => constructor <;> simp [load_layout_json, rowsBroken, goodKeyCount, hr]
      | jstr s => constructor <;> simp [load_layout_json, rowsBroken, goodKeyCount, hr]
      | jobj fs => constructor <;> simp [load_layout_json, rowsBroken, goodKeyCount, hr]
      | jarr rows =>
        constructor
        · simp [load_layout_json, rowsBroken, hr]
        · simp only [load_layout_json, goodKeyCount, hr]
          rw [foldRows_keys_length resolve ww (wh / (rows.length : ℚ)) maxkeys
            rows.length rows.enum ⟨[], fun _ => []⟩ (by simp)]
          simp only [List.length_nil, Nat.zero_add]
          rw [show rows.enum = List.enumFrom 0 rows from rfl, enumFrom_goodRowCount_sum]

/-- C2 counterexample: the claim quantifies over every key whose keysym is
not Shift, Ctrl, Alt or Caps Lock, but pressing the Fn key (`XK_Mode_switch`,
none of those four) while shift is toggled leaves the shift boolean set: the
Fn press is handled as a toggle before the auto-release block is reached. -/
theorem c2_counterexample :
    ((mkDState [shiftKey, fnKey]).keys.getD 1 default).keysym ≠ XK_Shift_L ∧
    ((mkDState [shiftKey, fnKey]).keys.getD 1 default).keysym ≠ XK_Shift_R ∧
    ((mkDState [shiftKey, fnKey]).keys.getD 1 default).keysym ≠ XK_Control_L ∧
    ((mkDState [shiftKey, fnKey]).keys.getD 1 default).keysym ≠ XK_Control_R ∧
    ((mkDState [shiftKey, fnKey]).keys.getD 1 default).keysym ≠ XK_Alt_L ∧
    ((mkDState [shiftKey, fnKey]).keys.getD 1 default).keysym ≠ XK_Alt_R ∧
    ((mkDState [shiftKey, fnKey]).keys.getD 1 default).keysym ≠ XK_Caps_Lock ∧
    ((pressKey (fun k => k) 0
        ((pressKey (fun k => k) 0 (mkDState [shiftKey, fnKey]) 0).1) 1).1).shift = true := by
  decide

/-- C3 counterexample: pressing Fn sets the one-shot flag, but a subsequent
press of the Shift key — a key dispatch in the claim's sense — does not
consume it: the modifier toggle path never clears `fn`, so the flag is still
set afterwards, contradicting "for every subsequent key dispatch of any
kind ... the fn flag is false immediately after that dispatch". -/
theorem c3_counterexample :
    ((pressKey (fun k => k) 0 (mkDState [fnKey, shiftKey]) 0).1).fn = true ∧
    ((pressKey (fun k => k) 0
        ((pressKey (fun k => k) 0 (mkDState [fnKey, shiftKey]) 0).1) 1).1).fn = true := by
  decide

/-- C7 counterexample: dispatching a press of a resolution-failed key (keysym
`NoSymbol`, modelled `0`) while shift is toggled does emit synthetic input:
the transient shift wrap pair is sent even though the key itself is skipped,
contradicting "emits no synthetic input at all". -/
theorem c7_counterexample :
    (((mkDState [shiftKey, badKey]).keys.getD 1 default).keysym = 0) ∧
    (pressKey (fun k => k) 0
        ((pressKey (fun k => k) 0 (mkDState [shiftKey, badKey]) 0).1) 1).2 =
      [Ev.keyDown XK_Shift_L, Ev.keyUp XK_Shift_L] := by
  decide

/-- C2 (amended): for every press dispatched on a non-modifier key — any key
whose keysym is not Shift, Ctrl, Alt or Caps Lock, nor the Fn (Mode_switch)
or Preferences key, whose presses are handled as toggles without dispatch —
immediately after dispatch the shift, ctrl and alt booleans are all false and
the pressed flags of every Shift/Ctrl/Alt key are cleared, regardless of
their values before the dispatch; the caps boolean is unchanged. -/
theorem c2_auto_release (kcOf : Nat → Nat) (now : Int) (st : DState) (i : Nat)
    (h : ¬ handledEarly (st.keys.getD i default).keysym) :
    ((pressKey kcOf now st i).1).shift = false ∧
    ((pressKey kcOf now st i).1).ctrl = false ∧
    ((pressKey kcOf now st i).1).alt = false ∧
    ((pressKey kcOf now st i).1).caps = st.caps ∧
    ∀ j, (isShiftSym (st.keys.getD j default).keysym
          || isCtrlSym (st.keys.getD j default).keysym
          || isAltSym (st.keys.getD j default).keysym) = true →
      ((pressKey kcOf now st i).1).pressedFlags.getD j false = false := by
  rw [pressKey_dispatch kcOf now st i h]
  exact ⟨rfl, rfl, rfl, rfl, fun j hj => clearModFlags_getD st.keys _ j hj⟩

/-- C2 witness: in `stC2w` all four modifier booleans are toggled and the
shift key (index 0) is marked pressed; dispatching the letter key at index 1
clears shift, ctrl and alt, keeps caps, and releases the shift key's flag. -/
theorem c2_auto_release_witness :
    ((pressKey (fun k => k) 0 stC2w 1).1).shift = false ∧
    ((pressKey (fun k => k) 0 stC2w 1).1).ctrl = false ∧
    ((pressKey (fun k => k) 0 stC2w 1).1).alt = false ∧
    ((pressKey (fun k => k) 0 stC2w 1).1).caps = true ∧
    ((pressKey (fun k => k) 0 stC2w 1).1).pressedFlags.getD 0 false = false := by
  obtain ⟨h1, h2, h3, h4, h5⟩ := c2_auto_release (fun k => k) 0 stC2w 1 (by decide)
  exact ⟨h1, h2, h3, h4.trans (by decide), h5 0 (by decide)⟩

/-- C3 (amended): pressing the Fn key toggles the one-shot fn flag (setting
it when clear) and marks the key pressed; the flag is false after the next
dispatched key press — any key outside the intercepted
Shift/Ctrl/Alt/Caps/Fn/Preferences set, including keys outside the remapped
number row — while presses of the intercepted modifier keys do not consume
it. -/
theorem c3_fn_one_shot (kcOf : Nat → Nat) (now : Int) (st : DState) (i : Nat) :
    ((st.keys.getD i default).keysym = XK_Mode_switch →
      ((pressKey kcOf now st i).1).fn = !st.fn ∧
      ((pressKey kcOf now st i).1).pressedFlags = st.pressedFlags.set i true) ∧
    (¬ handledEarly (st.keys.getD i default).keysym →
      ((pressKey kcOf now st i).1).fn = false) := by
  constructor
  · intro hk
    simp only [pressKey, hk]
    norm_num [isShiftSym, isCtrlSym, isAltSym, XK_Mode_switch, XK_Preferences,
      XK_Shift_L, XK_Shift_R, XK_Caps_Lock, XK_Control_L, XK_Control_R,
      XK_Alt_L, XK_Alt_R, List.set_set]
  · intro h
    rw [pressKey_dispatch kcOf now st i h]

/-- C3 witness: pressing Fn in a fresh state sets the flag; dispatching the
letter key with the flag set clears it. -/
theorem c3_fn_one_shot_witness :
    ((pressKey (fun k => k) 0 (mkDState [fnKey, aKey]) 0).1).fn = true ∧
    ((pressKey (fun k => k) 0 { mkDState [fnKey, aKey] with fn := true } 1).1).fn = false := by
  constructor
  · have h := (c3_fn_one_shot (fun k => k) 0 (mkDState [fnKey, aKey]) 0).1 (by decide)
    rw [h.1]
    decide
  · exact (c3_fn_one_shot (fun k => k) 0
      { mkDState [fnKey, aKey] with fn := true } 1).2 (by decide)

/-- C4: for every dispatched non-modifier key press, with a focus target
captured and the platform Shift/Ctrl/Alt keycodes resolvable, `need_shift`
equals `caps XOR shift` when the key's label is a single alphabetic character
and `shift` otherwise, and the synthetic emission wraps the (possibly
Fn-substituted) key with modifier pairs for whichever of need_shift, ctrl,
alt are set, in the exact order: shift down, ctrl down, alt down, key down,
key up, alt up, ctrl up, shift up. -/
theorem c4_wrap_order (kcOf : Nat → Nat) (now : Int) (st : DState) (i : Nat)
    (h : ¬ handledEarly (st.keys.getD i default).keysym)
    (hfo : st.lastFocus ≠ 0)
    (hsk : kcOf XK_Shift_L ≠ 0) (hck : kcOf XK_Control_L ≠ 0)
    (hak : kcOf XK_Alt_L ≠ 0) :
    (pressKey kcOf now st i).2 =
      (if (if isLetterKey (st.keys.getD i default).label then xor st.caps st.shift
           else st.shift) then [Ev.keyDown (kcOf XK_Shift_L)] else []) ++
      (if st.ctrl then [Ev.keyDown (kcOf XK_Control_L)] else []) ++
      (if st.alt then [Ev.keyDown (kcOf XK_Alt_L)] else []) ++
      (if kcOf (if st.fn then fnRemap (st.keys.getD i default).keysym
                else (st.keys.getD i default).keysym) != 0 then
        [Ev.keyDown (kcOf (if st.fn then fnRemap (st.keys.getD i default).keysym
                           else (st.keys.getD i default).keysym)),
         Ev.keyUp (kcOf (if st.fn then fnRemap (st.keys.getD i default).keysym
                         else (st.keys.getD i default).keysym))] else []) ++
      (if st.alt then [Ev.keyUp (kcOf XK_Alt_L)] else []) ++
      (if st.ctrl then [Ev.keyUp (kcOf XK_Control_L)] else []) ++
      (if (if isLetterKey (st.keys.getD i default).label then xor st.caps st.shift
           else st.shift) then [Ev.keyUp (kcOf XK_Shift_L)] else []) := by
  have hsk2 : (kcOf XK_Shift_L != 0) = true := bne_iff_ne.mpr hsk
  have hck2 : (kcOf XK_Control_L != 0) = true := bne_iff_ne.mpr hck
  have hak2 : (kcOf XK_Alt_L != 0) = true := bne_iff_ne.mpr hak
  rw [pressKey_dispatch kcOf now st i h]
  simp only [if_pos hfo, emitEvents, needShiftOf, hsk2, hck2, hak2, Bool.and_true]

/-- C4 witness: in `stC4` (caps and ctrl toggled) dispatching the letter key
"a" emits shift down, ctrl down, key down, key up, ctrl up, shift up — the
uppercase wrap comes from `caps XOR shift = true` with shift itself false. -/
theorem c4_wrap_order_witness :
    (pressKey (fun k => k) 0 stC4 0).2 =
      [Ev.keyDown XK_Shift_L, Ev.keyDown XK_Control_L, Ev.keyDown 0x61,
       Ev.keyUp 0x61, Ev.keyUp XK_Control_L, Ev.keyUp XK_Shift_L] := by
  rw [c4_wrap_order (fun k => k) 0 stC4 0 (by decide) (by decide) (by decide)
    (by decide) (by decide)]
  decide

/-- C7 (amended): dispatching a press of a key whose symbolic name failed
resolution (keysym `NoSymbol`, to which the platform maps no keycode) emits
no key events for the key itself — at most the wrap pairs of the transient
modifiers that are currently active — so with shift, ctrl, alt clear and
need_shift false, nothing is emitted at all. -/
theorem c7_unresolved_key (kcOf : Nat → Nat) (now : Int) (st : DState) (i : Nat)
    (hk : (st.keys.getD i default).keysym = 0)
    (hkc : kcOf 0 = 0) (hfo : st.lastFocus ≠ 0) :
    (pressKey kcOf now st i).2 =
      (if needShiftOf (st.keys.getD i default) st.caps st.shift
          && (kcOf XK_Shift_L != 0)
       then [Ev.keyDown (kcOf XK_Shift_L)] else []) ++
      (if st.ctrl && (kcOf XK_Control_L != 0)
       then [Ev.keyDown (kcOf XK_Control_L)] else []) ++
      (if st.alt && (kcOf XK_Alt_L != 0) then [Ev.keyDown (kcOf XK_Alt_L)] else []) ++
      (if st.alt && (kcOf XK_Alt_L != 0) then [Ev.keyUp (kcOf XK_Alt_L)] else []) ++
      (if st.ctrl && (kcOf XK_Control_L != 0)
       then [Ev.keyUp (kcOf XK_Control_L)] else []) ++
      (if needShiftOf (st.keys.getD i default) st.caps st.shift
          && (kcOf XK_Shift_L != 0)
       then [Ev.keyUp (kcOf XK_Shift_L)] else []) := by
  have h : ¬ handledEarly (st.keys.getD i default).keysym := by rw [hk]; decide
  rw [pressKey_dispatch kcOf now st i h]
  simp only [if_pos hfo, hk]
  have hbase : (if st.fn then fnRemap 0 else 0) = 0 := by
    cases hf : st.fn
    · rfl
    · simp [show fnRemap 0 = 0 from by decide]
  rw [hbase]
  simp only [emitEvents, hkc]
  norm_num

/-- C7 witness: with no modifiers active, dispatching the resolution-failed
key of `stC7w` emits nothing at all. -/
theorem c7_unresolved_key_witness :
    (pressKey (fun k => k) 0 stC7w 0).2 = [] := by
  rw [c7_unresolved_key (fun k => k) 0 stC7w 0 (by decide) rfl (by decide)]
  decide

/-- C9: when the fn flag is set and a non-modifier key press is dispatched
(with a focus target captured), the emitted key code is the key's keysym
substituted through `fnRemap` before emission, and `fnRemap` is exactly the
map 1→F1 … 9→F9, 0→F10, minus→F11, equal→F12, the identity on every other
keysym. -/
theorem c9_fn_substitution (kcOf : Nat → Nat) (now : Int) (st : DState) (i : Nat)
    (h : ¬ handledEarly (st.keys.getD i default).keysym)
    (hfn : st.fn = true) (hfo : st.lastFocus ≠ 0) :
    ((pressKey kcOf now st i).2 =
      emitEvents kcOf (needShiftOf (st.keys.getD i default) st.caps st.shift)
        st.ctrl st.alt (fnRemap (st.keys.getD i default).keysym)) ∧
    fnRemap XK_1 = XK_F1 ∧ fnRemap XK_2 = XK_F2 ∧ fnRemap XK_3 = XK_F3 ∧
    fnRemap XK_4 = XK_F4 ∧ fnRemap XK_5 = XK_F5 ∧ fnRemap XK_6 = XK_F6 ∧
    fnRemap XK_7 = XK_F7 ∧ fnRemap XK_8 = XK_F8 ∧ fnRemap XK_9 = XK_F9 ∧
    fnRemap XK_0 = XK_F10 ∧ fnRemap XK_minus = XK_F11 ∧ fnRemap XK_equal = XK_F12 ∧
    (∀ k2, k2 ≠ XK_1 → k2 ≠ XK_2 → k2 ≠ XK_3 → k2 ≠ XK_4 → k2 ≠ XK_5 → k2 ≠ XK_6 →
      k2 ≠ XK_7 → k2 ≠ XK_8 → k2 ≠ XK_9 → k2 ≠ XK_0 → k2 ≠ XK_minus → k2 ≠ XK_equal →
      fnRemap k2 = k2) := by
  refine ⟨?_, by decide, by decide, by decide, by decide, by decide, by decide,
    by decide, by decide, by decide, by decide, by decide, by decide, ?_⟩
  · rw [pressKey_dispatch kcOf now st i h]
    simp only [if_pos hfo, hfn, if_true]
  · intro k2 h1 h2 h3 h4 h5 h6 h7 h8 h9 h10 h11 h12
    simp [fnRemap, h1, h2, h3, h4, h5, h6, h7, h8, h9, h10, h11, h12]

/-- C9 witness: in `stC9` the Fn flag is set; dispatching the key mapped to
"1" emits F1 down and F1 up, not the "1" keysym. -/
theorem c9_fn_substitution_witness :
    (pressKey (fun k => k) 0 stC9 0).2 = [Ev.keyDown XK_F1, Ev.keyUp XK_F1] := by
  rw [(c9_fn_substitution (fun k => k) 0 stC9 0 (by decide) rfl (by decide)).1]
  decide

/-- Reading back the element just written by `List.set`. -/
theorem getD_set_self {α : Type} (l : List α) (i : Nat) (a d : α)
    (h : i < l.length) : (l.set i a).getD i d = a := by
  induction l generalizing i with
  | nil => simp at h
  | cons b rest ih =>
    cases i with
    | zero => rfl
    | succ i => simpa using ih i (by simpa using h)

/-- `List.set` leaves every other position unchanged. -/
theorem getD_set_ne {α : Type} (l : List α) (i j : Nat) (a d : α)
    (h : j ≠ i) : (l.set i a).getD j d = l.getD j d := by
  induction l generalizing i j with
  | nil => rfl
  | cons b rest ih =>
    cases i with
    | zero =>
      cases j with
      | zero => exact absurd rfl h
      | succ j => rfl
    | succ i =>
      cases j with
      | zero => rfl
      | succ j => simpa using ih i j (by omega)

/-- C6: for a held key (with a focus target captured, the shift keycode and
the key's own keycode resolvable, and a positive monotonic clock), a repeat
emission occurs exactly when more than 400ms have elapsed since the initial
press and the repeat timer is unset or more than 100ms old; the emission
recomputes need_shift from the current caps/shift state and wraps the key's
unmodified keysym with a shift pair alone — no Fn substitution and no
ctrl/alt wraps — and once the timer is stamped at `now`, no repeat fires
again within the following 100ms. -/
theorem c6_key_repeat (kcOf : Nat → Nat) (st : DState) (i : Nat) (now now2 : Int)
    (hfo : st.lastFocus ≠ 0) (hsk : kcOf XK_Shift_L ≠ 0)
    (hkk : kcOf (st.keys.getD i default).keysym ≠ 0)
    (hnow : 0 < now) (hlen : i < st.lastRepeat.length) :
    (repeatEvents kcOf st i now ≠ [] ↔ repeatFires st i now = true) ∧
    (repeatFires st i now = true →
      repeatEvents kcOf st i now =
        (if needShiftOf (st.keys.getD i default) st.caps st.shift
         then [Ev.keyDown (kcOf XK_Shift_L)] else []) ++
        [Ev.keyDown (kcOf (st.keys.getD i default).keysym),
         Ev.keyUp (kcOf (st.keys.getD i default).keysym)] ++
        (if needShiftOf (st.keys.getD i default) st.caps st.shift
         then [Ev.keyUp (kcOf XK_Shift_L)] else [])) ∧
    (repeatFires st i now = true → now2 - now ≤ 100 →
      repeatFires (repeatTimer st i now) i now2 = false) := by
  have hfo2 : (st.lastFocus != 0) = true := bne_iff_ne.mpr hfo
  have hsk2 : (kcOf XK_Shift_L != 0) = true := bne_iff_ne.mpr hsk
  have hkk2 : (kcOf (st.keys.getD i default).keysym != 0) = true := bne_iff_ne.mpr hkk
  have hemit : repeatFires st i now = true →
      repeatEvents kcOf st i now =
        (if needShiftOf (st.keys.getD i default) st.caps st.shift
         then [Ev.keyDown (kcOf XK_Shift_L)] else []) ++
        [Ev.keyDown (kcOf (st.keys.getD i default).keysym),
         Ev.keyUp (kcOf (st.keys.getD i default).keysym)] ++
        (if needShiftOf (st.keys.getD i default) st.caps st.shift
         then [Ev.keyUp (kcOf XK_Shift_L)] else []) := by
    intro hf
    unfold repeatEvents
    rw [hf, hfo2]
    simp only [Bool.and_self, if_true, hsk2, hkk2, Bool.and_true]
  refine ⟨⟨?_, ?_⟩, hemit, ?_⟩
  · intro hne
    by_contra hf
    rw [Bool.not_eq_true] at hf
    apply hne
    unfold repeatEvents
    rw [hf]
    rfl
  · intro hf
    rw [hemit hf]
    by_cases hn : needShiftOf (st.keys.getD i default) st.caps st.shift
    · simp [hn]
    · simp [hn]
  · intro hf hle
    unfold repeatTimer
    rw [if_pos hf]
    unfold repeatFires
    simp only
    rw [getD_set_self st.lastRepeat i now 0 hlen]
    have h1 : (now == 0) = false := beq_eq_false_iff_ne.mpr (by omega)
    have h2 : decide (now2 - now > 100) = false := decide_eq_false (by omega)
    rw [h1, h2]
    simp

/-- C6 witness: in `stC6` the key has been held since time 0 with the timer
unset; at time 401 the repeat fires and emits the bare key pair (no shift,
ctrl or alt wraps), its emission is nonempty exactly because the timing test
holds, and after stamping the timer no repeat fires at time 501. -/
theorem c6_key_repeat_witness :
    (repeatEvents (fun k => k) stC6 0 401 ≠ [] ↔ repeatFires stC6 0 401 = true) ∧
    (repeatFires stC6 0 401 = true →
      repeatEvents (fun k => k) stC6 0 401 =
        (if needShiftOf (stC6.keys.getD 0 default) stC6.caps stC6.shift
         then [Ev.keyDown XK_Shift_L] else []) ++
        [Ev.keyDown (stC6.keys.getD 0 default).keysym,
         Ev.keyUp (stC6.keys.getD 0 default).keysym] ++
        (if needShiftOf (stC6.keys.getD 0 default) stC6.caps stC6.shift
         then [Ev.keyUp XK_Shift_L] else [])) ∧
    (repeatFires stC6 0 401 = true → (501 : Int) - 401 ≤ 100 →
      repeatFires (repeatTimer stC6 0 401) 0 501 = false) :=
  c6_key_repeat (fun k => k) stC6 0 401 501 (by decide) (by decide) (by decide)
    (by decide) (by decide)

/-- C10: a ButtonRelease handled with the menu closed ignores the release
coordinates entirely and updates only the first (lowest-indexed) key
currently marked pressed: its flag becomes the governing modifier boolean
for Shift/Ctrl/Alt keys and false for Caps Lock and every other key, its
repeat timer is reset, and every other key's press record — and the rest of
the state — is left unchanged. -/
theorem c10_release_first_pressed (x y x2 y2 : Int) (st : DState) (i : Nat)
    (hm : st.menuVisible = false)
    (hi : firstPressedIdx st.pressedFlags = some i) :
    handleRelease x y st = handleRelease x2 y2 st ∧
    st.pressedFlags.getD i false = true ∧
    (∀ j, j < i → st.pressedFlags.getD j false = false) ∧
    (handleRelease x y st).pressedFlags =
      st.pressedFlags.set i
        (if (st.keys.getD i default).keysym = XK_Caps_Lock then false
         else if isShiftSym (st.keys.getD i default).keysym then st.shift
         else if isCtrlSym (st.keys.getD i default).keysym then st.ctrl
         else if isAltSym (st.keys.getD i default).keysym then st.alt
         else false) ∧
    (handleRelease x y st).lastRepeat = st.lastRepeat.set i 0 ∧
    (∀ j, j ≠ i →
      (handleRelease x y st).pressedFlags.getD j false
        = st.pressedFlags.getD j false) ∧
    (handleRelease x y st).keys = st.keys ∧
    (handleRelease x y st).shift = st.shift ∧
    (handleRelease x y st).caps = st.caps ∧
    (handleRelease x y st).ctrl = st.ctrl ∧
    (handleRelease x y st).alt = st.alt ∧
    (handleRelease x y st).fn = st.fn ∧
    (handleRelease x y st).menuVisible = st.menuVisible ∧
    (handleRelease x y st).lastFocus = st.lastFocus ∧
    (handleRelease x y st).pressTime = st.pressTime := by
  obtain ⟨ht, hlt⟩ := firstPressedIdx_spec st.pressedFlags i hi
  unfold handleRelease
  rw [hi]
  exact ⟨rfl, ht, hlt, rfl, rfl,
    fun j hj => getD_set_ne st.pressedFlags i j _ false hj,
    rfl, rfl, rfl, rfl, rfl, rfl, rfl, rfl, rfl⟩

/-- C10 witness: in `stC10` both keys are pressed and shift is toggled;
releasing at any coordinates updates only key 0 (the shift key, whose flag
follows the still-toggled shift boolean) and resets only its timer. -/
theorem c10_release_first_pressed_witness :
    (handleRelease 3 4 stC10).pressedFlags = [true, true] ∧
    (handleRelease 3 4 stC10).lastRepeat = [0, 9] ∧
    handleRelease 3 4 stC10 = handleRelease 55 66 stC10 := by
  have h := c10_release_first_pressed 3 4 55 66 stC10 0 rfl (by decide)
  refine ⟨?_, ?_, h.1⟩
  · rw [h.2.2.2.1]
    decide
  · rw [h.2.2.2.2.1]
    decide

end Touchboard
